import Mathlib

/-!
Verification development for the SurrealDB Python ORM connection layer
(`src/surrealdb/orm/...` and `src/surrealdb/connections/transaction.py`).

The Python code is shallowly embedded: pure computations become Lean
functions, stateful methods become explicit state-passing functions over a
`PoolState` record, fallible calls return `Except`/`Option`, and the
environment (liveness probes, connection-creation success, per-attempt
operation outcomes) is supplied as explicit oracle functions.  Delays are
modelled as exact rationals.
-/

/-! ## Retry executor

Embeds `AsyncSingleConnection.execute_with_retry`
(`src/surrealdb/orm/connection/single.py`, lines 39-73), which is textually
identical to `SyncSingleConnection.execute_with_retry` and to
`AsyncConnectionPool._execute_with_retry` /
`SyncConnectionPool._execute_with_retry`: a `for attempt in
range(max_retries + 1)` loop that returns the operation's result on
success, sleeps `retry_delay * (2 ** attempt)` after a failure when
`attempt < max_retries`, and after the loop raises
`ConnectionError(...) from last_exception`. -/

/-- Observable outcome of one `execute_with_retry` call: the returned value
or the raised `ConnectionError` (whose recorded cause is `last_exception`,
`none` only if the loop body never ran), the number of attempts made, and
the list of back-off sleeps performed, in order. -/
structure RetryTrace (E A : Type) where
  result : Except (Option E) A
  attempts : Nat
  sleeps : List ℚ
  deriving Repr

/-- Loop of `execute_with_retry`.  `fuel` is the number of loop iterations
remaining (initially `max_retries + 1`), `attempt` the current attempt
index, `last` the current `last_exception`.  `op attempt` is the outcome of
calling `operation(connection)` on that attempt.  A failure sleeps
`base * 2 ^ attempt` exactly when further iterations remain
(`attempt < max_retries`, i.e. remaining fuel after this iteration is
positive), mirroring the source's `if attempt < self._max_retries`. -/
def retryAux {E A : Type} (base : ℚ) (op : Nat → Except E A) :
    Nat → Nat → Option E → RetryTrace E A
  | 0, _, last => ⟨.error last, 0, []⟩
  | fuel + 1, attempt, _ =>
    match op attempt with
    | .ok v => ⟨.ok v, 1, []⟩
    | .error e =>
      if fuel = 0 then
        ⟨.error (some e), 1, []⟩
      else
        let rest := retryAux base op fuel (attempt + 1) (some e)
        ⟨rest.result, rest.attempts + 1, base * 2 ^ attempt :: rest.sleeps⟩

/-- Embeds `execute_with_retry(operation)` with retry policy
`(maxRetries, base)`: run the loop with `max_retries + 1` iterations of
fuel, starting at attempt 0 with `last_exception = None`. -/
def executeWithRetry {E A : Type} (maxRetries : Nat) (base : ℚ)
    (op : Nat → Except E A) : RetryTrace E A :=
  retryAux base op (maxRetries + 1) 0 none

lemma retryAux_attempts_le {E A : Type} (base : ℚ) (op : Nat → Except E A) :
    ∀ (fuel attempt : Nat) (last : Option E),
      (retryAux base op fuel attempt last).attempts ≤ fuel := by
  intro fuel
  induction fuel with
  | zero => intro attempt last; simp [retryAux]
  | succ n ih =>
    intro attempt last
    unfold retryAux
    cases h : op attempt with
    | ok v => simp
    | error e =>
      by_cases hn : n = 0
      · simp [hn]
      · simpa [hn] using ih (attempt + 1) (some e)

lemma retryAux_success {E A : Type} (base : ℚ) (op : Nat → Except E A)
    (v : A) : ∀ (k fuel attempt : Nat) (last : Option E), k < fuel →
    (∀ i < k, (op (attempt + i)).isOk = false) → op (attempt + k) = .ok v →
    retryAux base op fuel attempt last =
      ⟨.ok v, k + 1, (List.range k).map (fun i => base * 2 ^ (attempt + i))⟩ := by
  intro k
  induction k with
  | zero =>
    intro fuel attempt last hk hfail hok
    obtain ⟨f, rfl⟩ := Nat.exists_eq_succ_of_ne_zero (Nat.pos_iff_ne_zero.mp hk)
    unfold retryAux
    rw [show attempt + 0 = attempt from rfl] at hok
    simp [hok]
  | succ k ih =>
    intro fuel attempt last hk hfail hok
    obtain ⟨f, rfl⟩ := Nat.exists_eq_succ_of_ne_zero
      (Nat.pos_iff_ne_zero.mp (Nat.lt_of_le_of_lt (Nat.zero_le _) hk))
    have hf : k < f := Nat.lt_of_succ_lt_succ hk
    have h0 : (op attempt).isOk = false := by
      have := hfail 0 (Nat.succ_pos k)
      simpa using this
    obtain ⟨e, he⟩ : ∃ e, op attempt = .error e := by
      cases hop : op attempt with
      | ok w => rw [hop] at h0; simp [Except.isOk, Except.toBool] at h0
      | error e => exact ⟨e, rfl⟩
    have hfne : f ≠ 0 := Nat.pos_iff_ne_zero.mp (Nat.lt_of_le_of_lt (Nat.zero_le _) hf)
    have hrest := ih f (attempt + 1) (some e) hf
      (fun i hi => by
        have := hfail (i + 1) (Nat.succ_lt_succ hi)
        simpa [Nat.add_assoc, Nat.add_comm 1 i] using this)
      (by
        have : attempt + 1 + k = attempt + (k + 1) := by omega
        rw [this]; exact hok)
    unfold retryAux
    rw [he]
    simp only [hfne, if_false, hrest]
    refine congrArg _ ?_
    rw [List.range_succ_eq_map, List.map_cons, List.map_map]
    refine congrArg₂ _ (by rw [Nat.add_zero]) ?_
    refine List.map_congr_left (fun i _ => ?_)
    simp only [Function.comp_apply]
    have harg : attempt + Nat.succ i = attempt + 1 + i := by omega
    rw [harg]

lemma retryAux_allfail {E A : Type} (base : ℚ) (op : Nat → Except E A)
    (err : Nat → E) : ∀ (fuel attempt : Nat) (last : Option E), 0 < fuel →
    (∀ i < fuel, op (attempt + i) = .error (err (attempt + i))) →
    (retryAux base op fuel attempt last).result
        = .error (some (err (attempt + (fuel - 1))))
      ∧ (retryAux base op fuel attempt last).attempts = fuel := by
  intro fuel
  induction fuel with
  | zero => intro attempt last h; omega
  | succ f ih =>
    intro attempt last _ hfail
    have h0 : op attempt = .error (err attempt) := by
      have := hfail 0 (Nat.succ_pos f)
      simpa using this
    unfold retryAux
    rw [h0]
    by_cases hf : f = 0
    · subst hf; simp
    · have hrest := ih (attempt + 1) (some (err attempt)) (Nat.pos_iff_ne_zero.mpr hf)
        (fun i hi => by
          have := hfail (i + 1) (Nat.succ_lt_succ hi)
          simpa [Nat.add_assoc, Nat.add_comm 1 i] using this)
      have harith : attempt + 1 + (f - 1) = attempt + (f + 1 - 1) := by omega
      rw [harith] at hrest
      simp only [hf, if_false]
      exact ⟨hrest.1, by simpa using hrest.2⟩

/-- C1: `execute_with_retry` makes at most `max_retries + 1` attempts; an
operation failing on exactly `k ≤ max_retries` attempts and then succeeding
returns the success result after the sleeps `base*2^0, …, base*2^(k-1)`;
an operation failing on all `max_retries + 1` attempts yields a
`ConnectionError` whose cause is the last underlying failure, after exactly
`max_retries + 1` attempts. -/
theorem retry_bounded_backoff_c1 {E A : Type} (maxRetries : Nat) (base : ℚ)
    (op : Nat → Except E A) :
    (executeWithRetry maxRetries base op).attempts ≤ maxRetries + 1
    ∧ (∀ k v, k ≤ maxRetries → (∀ i < k, (op i).isOk = false) → op k = .ok v →
        executeWithRetry maxRetries base op =
          ⟨.ok v, k + 1, (List.range k).map (fun i => base * 2 ^ i)⟩)
    ∧ (∀ err : Nat → E, (∀ i ≤ maxRetries, op i = .error (err i)) →
        (executeWithRetry maxRetries base op).result = .error (some (err maxRetries))
        ∧ (executeWithRetry maxRetries base op).attempts = maxRetries + 1) := by
  refine ⟨retryAux_attempts_le base op (maxRetries + 1) 0 none, ?_, ?_⟩
  · intro k v hk hfail hok
    have h := retryAux_success base op v k (maxRetries + 1) 0 none
      (Nat.lt_succ_of_le hk)
      (fun i hi => by simpa using hfail i hi)
      (by simpa using hok)
    simpa [executeWithRetry] using h
  · intro err hfail
    have h := retryAux_allfail base op err (maxRetries + 1) 0 none
      (Nat.succ_pos _)
      (fun i hi => by simpa using hfail i (Nat.lt_succ_iff.mp hi))
    simpa [executeWithRetry] using h

/-- Witness for C1 at concrete inputs: with `max_retries = 2`,
`base = 1`, an operation failing once then succeeding with 7 returns
`ok 7` after 2 attempts and one sleep of 1 second; an operation always
failing with error 5 ends in a `ConnectionError` with cause 5 after 3
attempts. -/
theorem retry_bounded_backoff_c1_witness :
    executeWithRetry 2 (1 : ℚ)
        (fun i => if i < 1 then Except.error (0 : Nat) else Except.ok (7 : Nat)) =
      ⟨Except.ok 7, 2, [1]⟩
    ∧ (executeWithRetry 2 (1 : ℚ)
          (fun _ => (Except.error (5 : Nat) : Except Nat Nat))).result =
        Except.error (some 5)
    ∧ (executeWithRetry 2 (1 : ℚ)
          (fun _ => (Except.error (5 : Nat) : Except Nat Nat))).attempts = 3 := by
  refine ⟨?_, ?_⟩
  · have h := (retry_bounded_backoff_c1 2 (1 : ℚ)
        (fun i => if i < 1 then Except.error (0 : Nat) else Except.ok (7 : Nat))).2.1
        1 7 (by decide) (by decide) rfl
    rw [h]
    norm_num [List.range_succ]
  · have h := (retry_bounded_backoff_c1 2 (1 : ℚ)
        (fun _ => (Except.error (5 : Nat) : Except Nat Nat))).2.2
        (fun _ => 5) (fun i _ => rfl)
    exact h

/-! ## Transaction scope

Embeds `AsyncTransaction.__aenter__` / `__aexit__`
(`src/surrealdb/connections/transaction.py`, lines 39-58), textually
parallel to `SyncTransaction.__enter__` / `__exit__` (lines 131-149).
`__aexit__` receives the body's exception (or `None`); when
`_in_transaction` it commits on `None` and rolls back otherwise, resetting
`_in_transaction` in a `finally`; returning `None` lets Python re-raise
the body's exception unchanged.  A failure raised by the commit/rollback
call itself propagates instead (with the body's failure as context), so
those calls' outcomes are extra oracles. -/

/-- Calls a transaction scope can issue on its bound connection. -/
inductive TxAction where
  | beginTx
  | commitTx
  | rollbackTx
  deriving DecidableEq, Repr

/-- Observable outcome of `__aexit__`: the connection calls issued, the
final `_in_transaction` flag, and the failure (if any) the caller observes
after the scope exits. -/
structure TxExitResult (ε : Type) where
  actions : List TxAction
  inTransaction : Bool
  propagated : Option ε
  deriving Repr

/-- Embeds `__aexit__(exc_type, exc_val, exc_tb)`: `inTx` is
`_in_transaction` on entry, `exc` the body's failure (`none` for a normal
exit), `commitExc`/`rollbackExc` the failure (if any) raised by the
`commit_transaction()` / `rollback_transaction()` call when issued. -/
def txExit {ε : Type} (inTx : Bool) (exc : Option ε)
    (commitExc rollbackExc : Option ε) : TxExitResult ε :=
  if inTx = false then
    ⟨[], inTx, exc⟩
  else
    match exc with
    | none => ⟨[.commitTx], false, commitExc⟩
    | some e =>
      ⟨[.rollbackTx], false,
        match rollbackExc with
        | some re => some re
        | none => some e⟩

/-- Embeds `__aenter__`: issue `begin_transaction()`; on its success set
`_in_transaction = True`, on its failure propagate that failure with the
flag still unset. -/
def txEnter {ε : Type} (beginExc : Option ε) : TxExitResult ε :=
  match beginExc with
  | some e => ⟨[.beginTx], false, some e⟩
  | none => ⟨[.beginTx], true, none⟩

/-- C2: on an entered scope whose commit/rollback calls succeed, a
body that completes without error leads to exactly a
`commit_transaction()` call (no rollback) and no failure for the caller;
a body failing with `e` leads to exactly a `rollback_transaction()` call
(no commit) and the caller observes the very same failure `e`. -/
theorem tx_exit_commit_rollback_c2 {ε : Type} :
    (txExit (ε := ε) true none none none = ⟨[.commitTx], false, none⟩)
    ∧ ∀ e : ε, txExit true (some e) none none = ⟨[.rollbackTx], false, some e⟩ := by
  exact ⟨rfl, fun e => rfl⟩

/-! ## Bulk result counters

Embeds the `BulkResult` dataclass and its `total_count` / `success_rate`
properties (`src/surrealdb/orm/types.py`, lines 32-49).  The Python floats
are modelled as exact rationals. -/

/-- Embeds the `BulkResult` dataclass; `α`/`β` stand for the element types
of the `errors` and `results` lists. -/
structure BulkResult (α β : Type) where
  success_count : Int
  error_count : Int
  errors : List α
  results : List β
  deriving Repr

/-- Embeds the `total_count` property: `success_count + error_count`. -/
def BulkResult.total_count {α β : Type} (b : BulkResult α β) : Int :=
  b.success_count + b.error_count

/-- Embeds the `success_rate` property: 0.0 when `total_count` is 0,
otherwise `success_count / total_count * 100.0`. -/
def BulkResult.success_rate {α β : Type} (b : BulkResult α β) : ℚ :=
  if b.total_count = 0 then 0
  else (b.success_count : ℚ) / (b.total_count : ℚ) * 100

/-- C10: `total_count` always equals `success_count + error_count`, and
`success_rate` is total — it returns 0 when `total_count` is 0 instead of
dividing by zero, and equals `success_count / total_count * 100` otherwise. -/
theorem bulk_result_rate_total_c10 {α β : Type} (b : BulkResult α β) :
    b.total_count = b.success_count + b.error_count
    ∧ (b.total_count = 0 → b.success_rate = 0)
    ∧ (b.total_count ≠ 0 →
        b.success_rate = (b.success_count : ℚ) / (b.total_count : ℚ) * 100) := by
  refine ⟨rfl, fun h => ?_, fun h => ?_⟩
  · simp [BulkResult.success_rate, h]
  · simp [BulkResult.success_rate, h]

/-- Witness for C10 at a concrete input: a bulk result with 3 successes
and 1 error has a nonzero total of 4 and a success rate of 75; one with
empty counts has rate 0. -/
theorem bulk_result_rate_total_c10_witness :
    (BulkResult.total_count (α := Unit) (β := Unit) ⟨3, 1, [], []⟩ ≠ 0)
    ∧ BulkResult.success_rate (α := Unit) (β := Unit) ⟨3, 1, [], []⟩ = 75
    ∧ BulkResult.success_rate (α := Unit) (β := Unit) ⟨0, 0, [], []⟩ = 0 := by
  refine ⟨by decide, ?_, ?_⟩
  · have h := (bulk_result_rate_total_c10 (⟨3, 1, [], []⟩ : BulkResult Unit Unit)).2.2
      (by decide)
    rw [h]
    norm_num [BulkResult.total_count]
  · exact (bulk_result_rate_total_c10 (⟨0, 0, [], []⟩ : BulkResult Unit Unit)).2.1
      (by decide)

/-! ## Connection pool

Embeds `AsyncConnectionPool` (`src/surrealdb/orm/connection/async_pool.py`),
textually parallel to `SyncConnectionPool`
(`src/surrealdb/orm/connection/sync_pool.py`), as a sequential state
machine.  Connections are identified by the `Nat` order of their creation.
The environment is oracles: `alive c` is the outcome of the liveness probe
`c.version()`, `createOk i` whether the creation of connection `i`
(`_create_connection`) succeeds, `closeFails c` whether `c.close()` raises.
In this sequential model a queue-wait on an empty availability queue is a
30-second timeout (no concurrent `release` can feed it), and a non-empty
queue hands out its head at once.  The fields `createdConns`, `checkedOut`,
`closedConns`, `discarded`, `releaseLog` and `closeFailLog` are ghost
bookkeeping of events (ids ever created, ids handed to a caller and not yet
released, ids on which `close()` was invoked, ids dropped without `close()`
by `acquire`'s failed-probe branch, arguments of `release()` invocations,
ids whose `close()` raised); they record what happens and never steer a
branch. -/

/-- State of one connection pool plus ghost event logs. -/
structure PoolState where
  poolSize : Nat
  closed : Bool
  pool : List Nat
  available : List Nat
  nextId : Nat
  createdConns : List Nat
  checkedOut : List Nat
  closedConns : List Nat
  discarded : List Nat
  releaseLog : List Nat
  closeFailLog : List Nat
  deriving Repr, DecidableEq

/-- Embeds `__init__` state for a pool of configured size `n`:
`_pool = []`, `_available` empty, `_closed = False`. -/
def initState (n : Nat) : PoolState :=
  ⟨n, false, [], [], 0, [], [], [], [], [], []⟩

/-- Embeds one `_create_connection()` call: the fresh connection gets id
`nextId`; the call fails (raising `ConnectionError`) iff `createOk nextId`
is false. -/
def tryCreate (createOk : Nat → Bool) (s : PoolState) : Option Nat × PoolState :=
  if createOk s.nextId then
    (some s.nextId,
      { s with nextId := s.nextId + 1,
               createdConns := s.createdConns ++ [s.nextId] })
  else
    (none, { s with nextId := s.nextId + 1 })

/-- One iteration of `_initialize_pool`'s `for _ in range(self._pool_size)`
loop: create a connection, append it to `self._pool` and put it on the
queue; a creation failure is logged and the loop continues. -/
def initStep (createOk : Nat → Bool) (s : PoolState) : PoolState :=
  match tryCreate createOk s with
  | (some c, s') => { s' with pool := s'.pool ++ [c], available := s'.available ++ [c] }
  | (none, s') => s'

/-- The `for _ in range(self._pool_size)` loop of `_initialize_pool`. -/
def initLoop (createOk : Nat → Bool) : Nat → PoolState → PoolState
  | 0, s => s
  | m + 1, s => initLoop createOk m (initStep createOk s)

/-- Embeds `_initialize_pool()` (async_pool.py lines 83-98): under the
lock, return at once when `self._pool` is non-empty, else attempt
`pool_size` creations. -/
def initPool (createOk : Nat → Bool) (s : PoolState) : PoolState :=
  if s.pool.isEmpty then initLoop createOk s.poolSize s else s

/-- The `ConnectionError` variants `acquire` can raise: pool closed, the
30-second queue-wait timeout, or a wrapped failure of the replacement
`_create_connection` after a failed liveness probe. -/
inductive AcquireError where
  | poolClosed
  | timeout
  | createFailed
  deriving DecidableEq, Repr

/-- Embeds `acquire()` (async_pool.py lines 100-137): fail at once when
closed; lazily initialize when `self._pool` is empty; an empty queue means
the 30s wait times out; otherwise dequeue the head `c` and probe it with
`c.version()`: on success hand `c` out, on failure drop `c` (without
closing it) and hand out a freshly created replacement without waiting on
the queue again; a failing replacement creation raises `ConnectionError`. -/
def acquire (alive createOk : Nat → Bool) (s : PoolState) :
    Except AcquireError Nat × PoolState :=
  if s.closed then
    (.error .poolClosed, s)
  else
    let s1 := if s.pool.isEmpty then initPool createOk s else s
    match s1.available with
    | [] => (.error .timeout, s1)
    | c :: rest =>
      let s2 := { s1 with available := rest }
      if alive c then
        (.ok c, { s2 with checkedOut := s2.checkedOut ++ [c] })
      else
        let s3 := { s2 with discarded := s2.discarded ++ [c] }
        match tryCreate createOk s3 with
        | (some c2, s4) => (.ok c2, { s4 with checkedOut := s4.checkedOut ++ [c2] })
        | (none, s4) => (.error .createFailed, s4)

/-- Embeds `release(connection)` (async_pool.py lines 139-170): on a
closed pool, best-effort close the connection; otherwise probe it — alive
connections go back on the queue; dead ones are best-effort closed and,
when the queue is below `pool_size`, a replacement is created and enqueued
(a replacement-creation failure is logged, not raised). -/
def release (c : Nat) (alive createOk : Nat → Bool) (s : PoolState) : PoolState :=
  let s0 := { s with releaseLog := s.releaseLog ++ [c] }
  if s0.closed then
    { s0 with closedConns := s0.closedConns ++ [c], checkedOut := s0.checkedOut.erase c }
  else if alive c then
    { s0 with available := s0.available ++ [c], checkedOut := s0.checkedOut.erase c }
  else
    let s1 := { s0 with closedConns := s0.closedConns ++ [c],
                        checkedOut := s0.checkedOut.erase c }
    if s1.available.length < s1.poolSize then
      match tryCreate createOk s1 with
      | (some c2, s2) => { s2 with available := s2.available ++ [c2] }
      | (none, s2) => s2
    else s1

/-- The `while not self._available.empty()` drain loop of `close_all()`:
`close()` each dequeued connection; a `close()` failure is caught, logged
(recorded in `closeFailLog`) and the drain continues. -/
def drainLoop (closeFails : Nat → Bool) : List Nat → PoolState → PoolState
  | [], s => s
  | c :: rest, s =>
    drainLoop closeFails rest
      { s with closedConns := s.closedConns ++ [c],
               closeFailLog := if closeFails c then s.closeFailLog ++ [c]
                               else s.closeFailLog }

/-- Embeds `close_all()` (async_pool.py lines 219-233): under the lock set
`_closed = True`, drain the queue closing every queued connection, then
`self._pool.clear()`. -/
def closeAll (closeFails : Nat → Bool) (s : PoolState) : PoolState :=
  let s1 := drainLoop closeFails s.available { s with closed := true, available := [] }
  { s1 with pool := [] }

/-- Total number of occurrences of connection `c` across the four
situations a created connection can be in: queued, checked out, closed, or
discarded-without-close. -/
def statusCount (s : PoolState) (c : Nat) : Nat :=
  s.available.count c + s.checkedOut.count c + s.closedConns.count c
    + s.discarded.count c

/-- Pool bookkeeping invariant: every created connection is in exactly one
situation, uncreated ids are in none, and all created ids are below the
creation counter. -/
def PoolInv (s : PoolState) : Prop :=
  ∀ c : Nat,
    (c ∈ s.createdConns → statusCount s c = 1)
    ∧ (c ∉ s.createdConns → statusCount s c = 0)
    ∧ (c ∈ s.createdConns → c < s.nextId)

lemma count_append_singleton_self (l : List Nat) (a : Nat) :
    (l ++ [a]).count a = l.count a + 1 := by
  simp

lemma count_append_singleton_ne (l : List Nat) {a b : Nat} (h : b ≠ a) :
    (l ++ [a]).count b = l.count b := by
  simp [List.count_append, List.count_singleton', Ne.symm h]

lemma initLoop_spec (createOk : Nat → Bool) : ∀ (m : Nat) (s : PoolState),
    initLoop createOk m s =
      { s with pool := s.pool ++ (List.range' s.nextId m).filter createOk,
               available := s.available ++ (List.range' s.nextId m).filter createOk,
               createdConns := s.createdConns ++ (List.range' s.nextId m).filter createOk,
               nextId := s.nextId + m } := by
  intro m
  induction m with
  | zero => intro s; simp [initLoop]
  | succ m ih =>
    intro s
    show initLoop createOk m (initStep createOk s) = _
    rw [ih (initStep createOk s)]
    unfold initStep tryCreate
    by_cases hc : createOk s.nextId
    · simp only [hc, if_true]
      simp [List.range'_succ, List.filter_cons, hc, List.append_assoc]
      omega
    · simp only [hc, if_false, Bool.false_eq_true]
      simp [List.range'_succ, List.filter_cons, hc]
      omega

lemma initPool_inv (createOk : Nat → Bool) {s : PoolState} (h : PoolInv s) :
    PoolInv (initPool createOk s) := by
  unfold initPool
  by_cases hp : s.pool.isEmpty
  · simp only [hp, if_true]
    rw [initLoop_spec]
    intro c
    have hFmem : ∀ d ∈ (List.range' s.nextId s.poolSize).filter createOk,
        s.nextId ≤ d ∧ d < s.nextId + s.poolSize := by
      intro d hd
      exact List.mem_range'_1.mp (List.mem_filter.mp hd).1
    have hFnodup : ((List.range' s.nextId s.poolSize).filter createOk).Nodup :=
      (List.nodup_range' _ _).filter _
    refine ⟨?_, ?_, ?_⟩
    · intro hc
      rcases List.mem_append.mp hc with hcold | hcF
      · have hlt := (h c).2.2 hcold
        have hcF0 : ((List.range' s.nextId s.poolSize).filter createOk).count c = 0 :=
          List.count_eq_zero.mpr (fun hm => by have := (hFmem c hm).1; omega)
        have hold := (h c).1 hcold
        simp only [statusCount, List.count_append] at hold ⊢
        omega
      · have h0 : statusCount s c = 0 := (h c).2.1
          (fun hm => by have h1 := (h c).2.2 hm; have h2 := (hFmem c hcF).1; omega)
        have h1 : ((List.range' s.nextId s.poolSize).filter createOk).count c = 1 :=
          List.count_eq_one_of_mem hFnodup hcF
        simp only [statusCount, List.count_append] at h0 ⊢
        omega
    · intro hc
      have hc1 : c ∉ s.createdConns := fun hm => hc (List.mem_append.mpr (Or.inl hm))
      have hc2 : c ∉ (List.range' s.nextId s.poolSize).filter createOk :=
        fun hm => hc (List.mem_append.mpr (Or.inr hm))
      have h0 := (h c).2.1 hc1
      have hcF0 : ((List.range' s.nextId s.poolSize).filter createOk).count c = 0 :=
        List.count_eq_zero.mpr hc2
      simp only [statusCount, List.count_append] at h0 ⊢
      omega
    · intro hc
      change c < s.nextId + s.poolSize
      rcases List.mem_append.mp hc with hcold | hcF
      · have := (h c).2.2 hcold
        omega
      · have := (hFmem c hcF).2
        omega
  · simpa [hp] using h

lemma acquire_inv (alive createOk : Nat → Bool) {s : PoolState} (h : PoolInv s) :
    PoolInv (acquire alive createOk s).2 := by
  unfold acquire
  by_cases hcl : s.closed
  · simpa [hcl] using h
  · simp only [hcl, Bool.false_eq_true, if_false]
    have h1 : PoolInv (if s.pool.isEmpty then initPool createOk s else s) := by
      by_cases hp : s.pool.isEmpty
      · simpa [hp] using initPool_inv createOk h
      · simpa [hp] using h
    set s1 := (if s.pool.isEmpty then initPool createOk s else s) with hs1
    rcases hav : s1.available with _ | ⟨c, rest⟩
    · simpa [hav] using h1
    · have hcmem : c ∈ s1.available := by rw [hav]; exact List.mem_cons_self _ _
      have hccr : c ∈ s1.createdConns := by
        by_contra hnc
        have h0 := (h1 c).2.1 hnc
        have hpos := List.count_pos_iff.mpr hcmem
        simp only [statusCount] at h0
        omega
      have hsum := (h1 c).1 hccr
      have hclt := (h1 c).2.2 hccr
      have havc : s1.available.count c = rest.count c + 1 := by
        rw [hav]; exact List.count_cons_self ..
      simp only [statusCount] at hsum
      have hrest0 : rest.count c = 0 := by omega
      have hch0 : s1.checkedOut.count c = 0 := by omega
      have hclo0 : s1.closedConns.count c = 0 := by omega
      have hd0 : s1.discarded.count c = 0 := by omega
      simp only [hav]
      by_cases hal : alive c
      · simp only [hal, if_true]
        intro d
        by_cases hdc : d = c
        · subst hdc
          refine ⟨fun _ => ?_, fun hnc => absurd hccr hnc, fun _ => hclt⟩
          simp only [statusCount, count_append_singleton_self]
          omega
        · have hdav : s1.available.count d = rest.count d := by
            rw [hav]; exact List.count_cons_of_ne hdc _
          refine ⟨fun hd => ?_, fun hnd => ?_, fun hd => (h1 d).2.2 hd⟩
          · have hone := (h1 d).1 hd
            simp only [statusCount] at hone ⊢
            rw [count_append_singleton_ne _ hdc]
            omega
          · have hzero := (h1 d).2.1 hnd
            simp only [statusCount] at hzero ⊢
            rw [count_append_singleton_ne _ hdc]
            omega
      · simp only [hal, Bool.false_eq_true, if_false]
        have hnn : s1.nextId ∉ s1.createdConns :=
          fun hm => absurd ((h1 _).2.2 hm) (lt_irrefl _)
        have h0n := (h1 s1.nextId).2.1 hnn
        simp only [statusCount] at h0n
        have hcn : c ≠ s1.nextId := by omega
        by_cases hco : createOk s1.nextId
        · simp only [tryCreate, hco, if_true]
          intro d
          by_cases hdc : d = c
          · subst hdc
            refine ⟨fun _ => ?_, fun hnc => absurd ?_ hnc,
              fun _ => by change d < s1.nextId + 1; omega⟩
            · simp only [statusCount, count_append_singleton_self,
                count_append_singleton_ne _ hcn]
              omega
            · exact List.mem_append.mpr (Or.inl hccr)
          · by_cases hdn : d = s1.nextId
            · subst hdn
              refine ⟨fun _ => ?_, fun hnc => absurd ?_ hnc,
                fun _ => by change s1.nextId < s1.nextId + 1; omega⟩
              · have havn : s1.available.count s1.nextId = 0 := by omega
                have hrestn : rest.count s1.nextId = 0 := by
                  rw [hav] at havn
                  have := List.count_cons_of_ne (Ne.symm hcn) rest (a := s1.nextId)
                  omega
                simp only [statusCount, count_append_singleton_self,
                  count_append_singleton_ne _ (Ne.symm hcn)]
                omega
              · exact List.mem_append.mpr (Or.inr (List.mem_singleton.mpr rfl))
            · have hdav : s1.available.count d = rest.count d := by
                rw [hav]; exact List.count_cons_of_ne hdc _
              have hmem_iff : d ∈ s1.createdConns ++ [s1.nextId] ↔ d ∈ s1.createdConns := by
                simp [List.mem_append, hdn]
              refine ⟨fun hd => ?_, fun hnd => ?_, fun hd => ?_⟩
              · have hone := (h1 d).1 (hmem_iff.mp hd)
                simp only [statusCount] at hone ⊢
                rw [count_append_singleton_ne _ hdn, count_append_singleton_ne _ hdc]
                omega
              · have hzero := (h1 d).2.1 (fun hm => hnd (List.mem_append.mpr (Or.inl hm)))
                simp only [statusCount] at hzero ⊢
                rw [count_append_singleton_ne _ hdn, count_append_singleton_ne _ hdc]
                omega
              · have := (h1 d).2.2 (hmem_iff.mp hd)
                change d < s1.nextId + 1
                omega
        · simp only [tryCreate, hco, Bool.false_eq_true, if_false]
          intro d
          by_cases hdc : d = c
          · subst hdc
            refine ⟨fun _ => ?_, fun hnc => absurd hccr hnc,
              fun _ => by change d < s1.nextId + 1; omega⟩
            simp only [statusCount, count_append_singleton_self]
            omega
          · have hdav : s1.available.count d = rest.count d := by
              rw [hav]; exact List.count_cons_of_ne hdc _
            refine ⟨fun hd => ?_, fun hnd => ?_, fun hd => ?_⟩
            · have hone := (h1 d).1 hd
              simp only [statusCount] at hone ⊢
              rw [count_append_singleton_ne _ hdc]
              omega
            · have hzero := (h1 d).2.1 hnd
              simp only [statusCount] at hzero ⊢
              rw [count_append_singleton_ne _ hdc]
              omega
            · have := (h1 d).2.2 hd
              change d < s1.nextId + 1
              omega

lemma release_inv (alive createOk : Nat → Bool) {s : PoolState} {c : Nat}
    (h : PoolInv s) (hmem : c ∈ s.checkedOut) :
    PoolInv (release c alive createOk s) := by
  have hccr : c ∈ s.createdConns := by
    by_contra hnc
    have h0 := (h c).2.1 hnc
    have hpos := List.count_pos_iff.mpr hmem
    simp only [statusCount] at h0
    omega
  have hsum := (h c).1 hccr
  have hclt := (h c).2.2 hccr
  have hchpos := List.count_pos_iff.mpr hmem
  simp only [statusCount] at hsum
  have hav0 : s.available.count c = 0 := by omega
  have hch1 : s.checkedOut.count c = 1 := by omega
  have hclo0 : s.closedConns.count c = 0 := by omega
  have hd0 : s.discarded.count c = 0 := by omega
  have herase_self : (s.checkedOut.erase c).count c = 0 := by
    rw [List.count_erase_self]; omega
  unfold release
  by_cases hcl : s.closed
  · simp only [hcl, if_true]
    intro d
    by_cases hdc : d = c
    · subst hdc
      refine ⟨fun _ => ?_, fun hnc => absurd hccr hnc, fun _ => hclt⟩
      simp only [statusCount, count_append_singleton_self, herase_self]
      omega
    · refine ⟨fun hd => ?_, fun hnd => ?_, fun hd => (h d).2.2 hd⟩
      · have hone := (h d).1 hd
        simp only [statusCount] at hone ⊢
        rw [count_append_singleton_ne _ hdc, List.count_erase_of_ne hdc]
        omega
      · have hzero := (h d).2.1 hnd
        simp only [statusCount] at hzero ⊢
        rw [count_append_singleton_ne _ hdc, List.count_erase_of_ne hdc]
        omega
  · simp only [hcl, Bool.false_eq_true, if_false]
    by_cases hal : alive c
    · simp only [hal, if_true]
      intro d
      by_cases hdc : d = c
      · subst hdc
        refine ⟨fun _ => ?_, fun hnc => absurd hccr hnc, fun _ => hclt⟩
        simp only [statusCount, count_append_singleton_self, herase_self]
        omega
      · refine ⟨fun hd => ?_, fun hnd => ?_, fun hd => (h d).2.2 hd⟩
        · have hone := (h d).1 hd
          simp only [statusCount] at hone ⊢
          rw [count_append_singleton_ne _ hdc, List.count_erase_of_ne hdc]
          omega
        · have hzero := (h d).2.1 hnd
          simp only [statusCount] at hzero ⊢
          rw [count_append_singleton_ne _ hdc, List.count_erase_of_ne hdc]
          omega
    · simp only [hal, Bool.false_eq_true, if_false]
      by_cases hcap : s.available.length < s.poolSize
      · simp only [hcap, if_true]
        have hnn : s.nextId ∉ s.createdConns :=
          fun hm => absurd ((h _).2.2 hm) (lt_irrefl _)
        have h0n := (h s.nextId).2.1 hnn
        simp only [statusCount] at h0n
        have hcn : c ≠ s.nextId := by omega
        by_cases hco : createOk s.nextId
        · simp only [tryCreate, hco, if_true]
          intro d
          by_cases hdc : d = c
          · subst hdc
            refine ⟨fun _ => ?_, fun hnc => absurd ?_ hnc,
              fun _ => by change d < s.nextId + 1; omega⟩
            · simp only [statusCount, count_append_singleton_self, herase_self,
                count_append_singleton_ne _ hcn]
              omega
            · exact List.mem_append.mpr (Or.inl hccr)
          · by_cases hdn : d = s.nextId
            · subst hdn
              have hchn : (s.checkedOut.erase c).count s.nextId = 0 := by
                rw [List.count_erase_of_ne hdc]; omega
              refine ⟨fun _ => ?_, fun hnc => absurd ?_ hnc,
                fun _ => by change s.nextId < s.nextId + 1; omega⟩
              · simp only [statusCount, count_append_singleton_self, hchn,
                  count_append_singleton_ne _ (Ne.symm hcn)]
                omega
              · exact List.mem_append.mpr (Or.inr (List.mem_singleton.mpr rfl))
            · have hmem_iff : d ∈ s.createdConns ++ [s.nextId] ↔ d ∈ s.createdConns := by
                simp [List.mem_append, hdn]
              refine ⟨fun hd => ?_, fun hnd => ?_, fun hd => ?_⟩
              · have hone := (h d).1 (hmem_iff.mp hd)
                simp only [statusCount] at hone ⊢
                rw [count_append_singleton_ne _ hdn, count_append_singleton_ne _ hdc,
                  List.count_erase_of_ne hdc]
                omega
              · have hzero := (h d).2.1 (fun hm => hnd (List.mem_append.mpr (Or.inl hm)))
                simp only [statusCount] at hzero ⊢
                rw [count_append_singleton_ne _ hdn, count_append_singleton_ne _ hdc,
                  List.count_erase_of_ne hdc]
                omega
              · have := (h d).2.2 (hmem_iff.mp hd)
                change d < s.nextId + 1
                omega
        · simp only [tryCreate, hco, Bool.false_eq_true, if_false]
          intro d
          by_cases hdc : d = c
          · subst hdc
            refine ⟨fun _ => ?_, fun hnc => absurd hccr hnc,
              fun _ => by change d < s.nextId + 1; omega⟩
            simp only [statusCount, count_append_singleton_self, herase_self]
            omega
          · refine ⟨fun hd => ?_, fun hnd => ?_, fun hd => ?_⟩
            · have hone := (h d).1 hd
              simp only [statusCount] at hone ⊢
              rw [count_append_singleton_ne _ hdc, List.count_erase_of_ne hdc]
              omega
            · have hzero := (h d).2.1 hnd
              simp only [statusCount] at hzero ⊢
              rw [count_append_singleton_ne _ hdc, List.count_erase_of_ne hdc]
              omega
            · have := (h d).2.2 hd
              change d < s.nextId + 1
              omega
      · simp only [hcap, if_false]
        intro d
        by_cases hdc : d = c
        · subst hdc
          refine ⟨fun _ => ?_, fun hnc => absurd hccr hnc, fun _ => hclt⟩
          simp only [statusCount, count_append_singleton_self, herase_self]
          omega
        · refine ⟨fun hd => ?_, fun hnd => ?_, fun hd => (h d).2.2 hd⟩
          · have hone := (h d).1 hd
            simp only [statusCount] at hone ⊢
            rw [count_append_singleton_ne _ hdc, List.count_erase_of_ne hdc]
            omega
          · have hzero := (h d).2.1 hnd
            simp only [statusCount] at hzero ⊢
            rw [count_append_singleton_ne _ hdc, List.count_erase_of_ne hdc]
            omega

lemma drainLoop_spec (closeFails : Nat → Bool) : ∀ (l : List Nat) (s : PoolState),
    drainLoop closeFails l s =
      { s with closedConns := s.closedConns ++ l,
               closeFailLog := s.closeFailLog ++ l.filter closeFails } := by
  intro l
  induction l with
  | nil => intro s; simp [drainLoop]
  | cons c rest ih =>
    intro s
    show drainLoop closeFails rest _ = _
    rw [ih]
    by_cases hc : closeFails c
    · simp [List.filter_cons, hc, List.append_assoc]
    · simp [List.filter_cons, hc]

lemma closeAll_spec (closeFails : Nat → Bool) (s : PoolState) :
    closeAll closeFails s =
      { s with closed := true, available := [], pool := [],
               closedConns := s.closedConns ++ s.available,
               closeFailLog := s.closeFailLog ++ s.available.filter closeFails } := by
  unfold closeAll
  rw [drainLoop_spec]

lemma closeAll_inv (closeFails : Nat → Bool) {s : PoolState} (h : PoolInv s) :
    PoolInv (closeAll closeFails s) := by
  rw [closeAll_spec]
  intro d
  refine ⟨fun hd => ?_, fun hnd => ?_, fun hd => (h d).2.2 hd⟩
  · have := (h d).1 hd
    simp only [statusCount, List.count_append, List.count_nil] at this ⊢
    omega
  · have := (h d).2.1 hnd
    simp only [statusCount, List.count_append, List.count_nil] at this ⊢
    omega

/-- One pool method invocation together with its environment oracles. -/
inductive PoolOp where
  | opAcquire (alive createOk : Nat → Bool)
  | opRelease (c : Nat) (alive createOk : Nat → Bool)
  | opCloseAll (closeFails : Nat → Bool)

/-- State reached after one pool method invocation. -/
def applyOp (s : PoolState) : PoolOp → PoolState
  | .opAcquire alive createOk => (acquire alive createOk s).2
  | .opRelease c alive createOk => release c alive createOk s
  | .opCloseAll closeFails => closeAll closeFails s

/-- A well-formed caller only releases a connection it currently holds
(one previously returned by `acquire` and not yet released). -/
def legalOp (s : PoolState) : PoolOp → Bool
  | .opRelease c _ _ => s.checkedOut.contains c
  | _ => true

/-- Legality of a whole call sequence, checked against the evolving state. -/
def legalOps : PoolState → List PoolOp → Bool
  | _, [] => true
  | s, op :: rest => legalOp s op && legalOps (applyOp s op) rest

/-- State reached after a sequence of pool method invocations. -/
def runOps : PoolState → List PoolOp → PoolState
  | s, [] => s
  | s, op :: rest => runOps (applyOp s op) rest

lemma initState_inv (n : Nat) : PoolInv (initState n) := by
  intro c
  exact ⟨fun hc => absurd hc (List.not_mem_nil c), fun _ => rfl,
    fun hc => absurd hc (List.not_mem_nil c)⟩

lemma applyOp_inv {s : PoolState} {op : PoolOp} (h : PoolInv s)
    (hl : legalOp s op = true) : PoolInv (applyOp s op) := by
  cases op with
  | opAcquire alive createOk => exact acquire_inv alive createOk h
  | opRelease c alive createOk =>
    exact release_inv alive createOk h (by simpa [legalOp] using hl)
  | opCloseAll closeFails => exact closeAll_inv closeFails h

lemma runOps_inv : ∀ (ops : List PoolOp) (s : PoolState), PoolInv s →
    legalOps s ops = true → PoolInv (runOps s ops) := by
  intro ops
  induction ops with
  | nil => intro s h _; exact h
  | cons op rest ih =>
    intro s h hl
    simp only [legalOps, Bool.and_eq_true] at hl
    exact ih _ (applyOp_inv h hl.1) hl.2

/-- C4 (amended): in every pool state reachable by a legal sequence of
acquire/release/close_all, every connection the pool ever created is in
exactly one of FOUR situations — queued, checked out, closed, or
discarded-without-close by `acquire`'s failed-probe branch
(`statusCount = 1` over the four ghost lists); hence no connection is both
queued and checked out, and no connection is closed twice.  The claim's
three-situation version (queued / checked out / closed) is refuted by
`pool_lifecycle_partition_c4_counterexample`: the connection dequeued by
`acquire` whose probe fails is dropped without `close()`. -/
theorem pool_lifecycle_partition_c4 (n : Nat) (ops : List PoolOp)
    (hl : legalOps (initState n) ops = true) :
    ∀ c ∈ (runOps (initState n) ops).createdConns,
      statusCount (runOps (initState n) ops) c = 1
      ∧ ¬(c ∈ (runOps (initState n) ops).available
            ∧ c ∈ (runOps (initState n) ops).checkedOut)
      ∧ (runOps (initState n) ops).closedConns.count c ≤ 1 := by
  intro c hc
  have hinv := runOps_inv ops (initState n) (initState_inv n) hl
  have h1 := (hinv c).1 hc
  refine ⟨h1, ?_, ?_⟩
  · rintro ⟨ha, hb⟩
    have hpa := List.count_pos_iff.mpr ha
    have hpb := List.count_pos_iff.mpr hb
    simp only [statusCount] at h1
    omega
  · simp only [statusCount] at h1
    omega

/-- Witness for C4 (amended) on a concrete legal trace: pool of size 1,
one acquire (probe passes) and one release; connection 0 sits in exactly
one situation. -/
theorem pool_lifecycle_partition_c4_witness :
    statusCount (runOps (initState 1)
      [PoolOp.opAcquire (fun _ => true) (fun _ => true),
       PoolOp.opRelease 0 (fun _ => true) (fun _ => true)]) 0 = 1 := by
  exact (pool_lifecycle_partition_c4 1
    [PoolOp.opAcquire (fun _ => true) (fun _ => true),
     PoolOp.opRelease 0 (fun _ => true) (fun _ => true)]
    (by decide) 0 (by decide)).1

/-- Counterexample to C4 as stated: pool of size 1; the single legal
operation is an `acquire` whose dequeued connection 0 fails its liveness
probe.  Connection 0 was created by the pool yet afterwards is neither in
the availability queue, nor checked out, nor was `close()` ever invoked on
it — it is simply dropped (leaked) by `acquire`'s replacement branch. -/
theorem pool_lifecycle_partition_c4_counterexample :
    legalOps (initState 1) [PoolOp.opAcquire (fun _ => false) (fun _ => true)] = true
    ∧ 0 ∈ (runOps (initState 1)
        [PoolOp.opAcquire (fun _ => false) (fun _ => true)]).createdConns
    ∧ 0 ∉ (runOps (initState 1)
        [PoolOp.opAcquire (fun _ => false) (fun _ => true)]).available
    ∧ 0 ∉ (runOps (initState 1)
        [PoolOp.opAcquire (fun _ => false) (fun _ => true)]).checkedOut
    ∧ 0 ∉ (runOps (initState 1)
        [PoolOp.opAcquire (fun _ => false) (fun _ => true)]).closedConns := by
  decide

/-- C3: `acquire` on a closed pool raises `ConnectionError` at once with
the state untouched (no wait, no retry); on an initialized pool with an
empty availability queue the 30s queue-wait times out into a
`ConnectionError` with the state untouched; and when the dequeued head `c`
fails its liveness probe while the replacement creation succeeds, the
freshly created connection (id `nextId`) is returned immediately — the
queue is popped exactly once (`available := rest`) and not re-entered. -/
theorem pool_acquire_modes_c3 (alive createOk : Nat → Bool) (s : PoolState) :
    (s.closed = true → acquire alive createOk s = (.error .poolClosed, s))
    ∧ (s.closed = false → s.pool ≠ [] → s.available = [] →
        acquire alive createOk s = (.error .timeout, s))
    ∧ (∀ c rest, s.closed = false → s.pool ≠ [] → s.available = c :: rest →
        alive c = false → createOk s.nextId = true →
        acquire alive createOk s =
          (.ok s.nextId,
            { s with available := rest,
                     nextId := s.nextId + 1,
                     createdConns := s.createdConns ++ [s.nextId],
                     checkedOut := s.checkedOut ++ [s.nextId],
                     discarded := s.discarded ++ [c] })) := by
  refine ⟨fun hcl => by simp [acquire, hcl], fun hcl hp hav => ?_,
    fun c rest hcl hp hav hal hco => ?_⟩
  · have hpe : s.pool.isEmpty = false := by
      rcases hq : s.pool with _ | ⟨x, xs⟩
      · exact absurd hq hp
      · rfl
    simp [acquire, hcl, hpe, hav]
  · have hpe : s.pool.isEmpty = false := by
      rcases hq : s.pool with _ | ⟨x, xs⟩
      · exact absurd hq hp
      · rfl
    simp [acquire, hcl, hpe, hav, hal, tryCreate, hco]

/-- Witness for C3 at a concrete input: an open two-connection pool whose
queue head 0 fails its probe; `acquire` returns the fresh replacement
connection 2. -/
theorem pool_acquire_modes_c3_witness :
    (acquire (fun _ => false) (fun _ => true)
        ⟨2, false, [0, 1], [0, 1], 2, [0, 1], [], [], [], [], []⟩).1 = Except.ok 2 := by
  have h := (pool_acquire_modes_c3 (fun _ => false) (fun _ => true)
      ⟨2, false, [0, 1], [0, 1], 2, [0, 1], [], [], [], [], []⟩).2.2 0 [1]
      rfl (by decide) rfl rfl rfl
  rw [h]

/-- C7: `close_all` marks the pool closed, leaves the availability queue
drained and the `_pool` list cleared, invokes `close()` on exactly the
previously queued connections (appended once each to the close log,
regardless of which `close()` calls fail — per-item failures do not abort
the drain), and is idempotent: a second `close_all` changes nothing, in
particular it closes no connection again. -/
theorem pool_close_all_c7 (closeFails closeFails2 : Nat → Bool) (s : PoolState) :
    (closeAll closeFails s).closed = true
    ∧ (closeAll closeFails s).available = []
    ∧ (closeAll closeFails s).pool = []
    ∧ (closeAll closeFails s).closedConns = s.closedConns ++ s.available
    ∧ closeAll closeFails2 (closeAll closeFails s) = closeAll closeFails s := by
  refine ⟨?_, ?_, ?_, ?_, ?_⟩
  · rw [closeAll_spec]
  · rw [closeAll_spec]
  · rw [closeAll_spec]
  · rw [closeAll_spec]
  · rw [closeAll_spec closeFails s, closeAll_spec closeFails2]
    simp

lemma initPool_initState (n : Nat) (createOk : Nat → Bool) :
    initPool createOk (initState n) =
      { initState n with pool := (List.range n).filter createOk,
                         available := (List.range n).filter createOk,
                         createdConns := (List.range n).filter createOk,
                         nextId := n } := by
  show initLoop createOk n (initState n) = _
  rw [initLoop_spec]
  simp [initState, ← List.range_eq_range']

/-- C5: `_initialize_pool` is guarded — on a pool whose `_pool` list is
non-empty it returns immediately without touching the state, so a pool
that got at least one connection is never initialized twice; on a fresh
pool it attempts `pool_size` creations and tolerates failures: the number
of available connections equals the number of successful creations, while
the configured `pool_size` still reports `n`; with at least one success
the pool is usable — `initPool` is a no-op from then on and an `acquire`
(probe passing) hands out a connection. -/
theorem pool_init_partial_c5 (n : Nat) (createOk createOk2 : Nat → Bool) :
    (∀ s : PoolState, s.pool ≠ [] → initPool createOk2 s = s)
    ∧ (initPool createOk (initState n)).poolSize = n
    ∧ (initPool createOk (initState n)).available.length
        = ((List.range n).filter createOk).length
    ∧ ((List.range n).filter createOk ≠ [] →
        initPool createOk2 (initPool createOk (initState n))
            = initPool createOk (initState n)
        ∧ ∃ c, (acquire (fun _ => true) createOk2
            (initPool createOk (initState n))).1 = .ok c) := by
  have hguard : ∀ (f : Nat → Bool) (s : PoolState), s.pool ≠ [] → initPool f s = s := by
    intro f s hp
    have hpe : s.pool.isEmpty = false := by
      rcases hq : s.pool with _ | ⟨x, xs⟩
      · exact absurd hq hp
      · rfl
    simp [initPool, hpe]
  refine ⟨hguard createOk2, ?_, ?_, fun hne => ⟨?_, ?_⟩⟩
  · rw [initPool_initState]
    rfl
  · rw [initPool_initState]
  · exact hguard createOk2 _ (by rw [initPool_initState]; simpa using hne)
  · rcases hF : (List.range n).filter createOk with _ | ⟨c, rest⟩
    · exact absurd hF hne
    · refine ⟨c, ?_⟩
      rw [initPool_initState]
      simp [acquire, hF, initState]

/-- Witness for C5 at concrete inputs: configured size 5 with creations
0,2,4 succeeding and 1,3 failing leaves 3 available connections while
`pool_size` still reports 5, and a later `acquire` succeeds. -/
theorem pool_init_partial_c5_witness :
    (initPool (fun i => i % 2 == 0) (initState 5)).available.length = 3
    ∧ (initPool (fun i => i % 2 == 0) (initState 5)).poolSize = 5
    ∧ initPool (fun _ => true) (initPool (fun i => i % 2 == 0) (initState 5))
        = initPool (fun i => i % 2 == 0) (initState 5) := by
  have h := pool_init_partial_c5 5 (fun i => i % 2 == 0) (fun _ => true)
  refine ⟨?_, h.2.1, (h.2.2.2 (by decide)).1⟩
  rw [h.2.2.1]
  decide

/-! ## Scoped execution with a pooled connection

Embeds `execute_with_connection(operation)` (async_pool.py lines 172-192)
together with the `connection()` context manager (lines 163-170): acquire,
run the operation through `_execute_with_retry`, and release in a
`finally`, so release runs on success, operation failure and retry
exhaustion alike. -/

/-- Embeds `execute_with_connection`: on acquisition failure that error
propagates (nothing to release); on acquisition of `c`, the retry executor
runs `op c` and the `finally` releases `c` before the result — value or
retry-exhaustion `ConnectionError` — reaches the caller. -/
def executeWithConnection {E A : Type} (maxRetries : Nat) (base : ℚ)
    (op : Nat → Nat → Except E A) (alive createOk relAlive relCreateOk : Nat → Bool)
    (s : PoolState) : Except (AcquireError ⊕ Option E) A × PoolState :=
  match acquire alive createOk s with
  | (.error e, s1) => (.error (Sum.inl e), s1)
  | (.ok c, s1) =>
    ((executeWithRetry maxRetries base (op c)).result.mapError Sum.inr,
      release c relAlive relCreateOk s1)

lemma release_log_append (c : Nat) (alive createOk : Nat → Bool) (s : PoolState) :
    (release c alive createOk s).releaseLog = s.releaseLog ++ [c] := by
  unfold release
  by_cases hcl : s.closed
  · simp [hcl]
  · by_cases hal : alive c
    · simp [hcl, hal]
    · by_cases hcap : s.available.length < s.poolSize
      · by_cases hco : createOk s.nextId
        · simp [hcl, hal, hcap, tryCreate, hco]
        · simp [hcl, hal, hcap, tryCreate, hco]
      · simp [hcl, hal, hcap]

/-- C6: whenever `acquire` hands out connection `c`, `execute_with_connection`
ends in the state `release c` produces from the post-acquire state — so
`release` is invoked exactly once on `c` (the release log grows by exactly
`[c]`) on every exit path — and the retry executor's outcome is what the
caller observes: its success value on success, its retry-exhaustion
`ConnectionError` on failure. -/
theorem pool_scoped_release_c6 {E A : Type} (maxRetries : Nat) (base : ℚ)
    (op : Nat → Nat → Except E A) (alive createOk relAlive relCreateOk : Nat → Bool)
    (s s1 : PoolState) (c : Nat)
    (hacq : acquire alive createOk s = (.ok c, s1)) :
    (executeWithConnection maxRetries base op alive createOk relAlive relCreateOk s).2
        = release c relAlive relCreateOk s1
    ∧ (executeWithConnection maxRetries base op alive createOk relAlive relCreateOk
        s).2.releaseLog = s1.releaseLog ++ [c]
    ∧ (∀ v, (executeWithRetry maxRetries base (op c)).result = .ok v →
        (executeWithConnection maxRetries base op alive createOk relAlive relCreateOk
          s).1 = .ok v)
    ∧ (∀ e, (executeWithRetry maxRetries base (op c)).result = .error e →
        (executeWithConnection maxRetries base op alive createOk relAlive relCreateOk
          s).1 = .error (Sum.inr e)) := by
  unfold executeWithConnection
  rw [hacq]
  exact ⟨rfl, release_log_append c relAlive relCreateOk s1,
    fun v hv => by simp [hv, Except.mapError],
    fun e he => by simp [he, Except.mapError]⟩

/-- Witness for C6 at concrete inputs: a one-connection pool, an operation
succeeding at once with 42; the caller sees 42 and connection 0 is
released exactly once. -/
theorem pool_scoped_release_c6_witness :
    (executeWithConnection (E := Nat) 3 1 (fun _ _ => Except.ok (42 : Nat))
        (fun _ => true) (fun _ => true) (fun _ => true) (fun _ => true)
        ⟨1, false, [0], [0], 1, [0], [], [], [], [], []⟩).1 = Except.ok 42
    ∧ (executeWithConnection (E := Nat) 3 1 (fun _ _ => Except.ok (42 : Nat))
        (fun _ => true) (fun _ => true) (fun _ => true) (fun _ => true)
        ⟨1, false, [0], [0], 1, [0], [], [], [], [], []⟩).2.releaseLog = [0] := by
  have h := pool_scoped_release_c6 (E := Nat) 3 1 (fun _ _ => Except.ok (42 : Nat))
    (fun _ => true) (fun _ => true) (fun _ => true) (fun _ => true)
    ⟨1, false, [0], [0], 1, [0], [], [], [], [], []⟩
    ⟨1, false, [0], [], 1, [0], [0], [], [], [], []⟩ 0 rfl
  exact ⟨h.2.2.1 42 rfl, by simpa using h.2.1⟩

/-! ## Filter-to-query translation

Embeds `BaseHelperMixin._build_filter_query`
(`src/surrealdb/orm/helpers/base_helpers.py`, lines 40-85).  Python dicts
iterate in insertion order, so `filter_kwargs` is a key/value list.  Filter
values are modelled by the types the translation distinguishes: ints,
strings and lists.  CPython's `repr` is embedded character-by-character
(quote choice and escaping of backslash, quote and control characters;
printable strings — the inputs the translation is used with — round-trip
exactly). -/

/-- Embeds the Python values a filter predicate carries. -/
inductive FilterValue where
  | intVal (n : Int)
  | strVal (s : String)
  | listVal (vs : List FilterValue)

/-- Embeds `str.endswith(suffix)`: character-level suffix test. -/
def pyEndsWith (s suffix : String) : Bool :=
  suffix.data.isSuffixOf s.data

/-- Escape of one character inside a `repr`-quoted string with quote
character `q`: backslash, the quote and the control characters newline,
carriage return and tab get a backslash escape. -/
def pyEscapeChar (q ch : Char) : List Char :=
  if ch = Char.ofNat 92 then [Char.ofNat 92, Char.ofNat 92]
  else if ch = q then [Char.ofNat 92, q]
  else if ch = Char.ofNat 10 then [Char.ofNat 92, Char.ofNat 110]
  else if ch = Char.ofNat 13 then [Char.ofNat 92, Char.ofNat 114]
  else if ch = Char.ofNat 9 then [Char.ofNat 92, Char.ofNat 116]
  else [ch]

/-- Embeds `repr` on a Python `str`: single quotes, switching to double
quotes when the string contains a single quote but no double quote. -/
def pyReprStr (s : String) : String :=
  let q : Char :=
    if s.data.contains (Char.ofNat 39) && !(s.data.contains (Char.ofNat 34)) then
      Char.ofNat 34
    else Char.ofNat 39
  String.mk (q :: (s.data.flatMap (pyEscapeChar q) ++ [q]))

mutual

/-- Embeds `repr(value)` for the modelled value types: decimal for ints,
quoted for strings, bracketed comma-joined for lists. -/
def pyRepr : FilterValue → String
  | .intVal n => toString n
  | .strVal s => pyReprStr s
  | .listVal vs => "[" ++ pyReprList vs ++ "]"

/-- Embeds `', '.join(repr(v) for v in value)`. -/
def pyReprList : List FilterValue → String
  | [] => ""
  | [v] => pyRepr v
  | v :: rest => pyRepr v ++ ", " ++ pyReprList rest

end

/-- Embeds the per-key body of `_build_filter_query`'s loop: the
`endswith`-dispatch producing one condition string.  Note the `__in`
branch matches the source's `isinstance(value, (list, tuple))` test:
non-list values fall back to an equality condition. -/
def condFor (key : String) (value : FilterValue) : String :=
  if pyEndsWith key "__gte" then key.dropRight 5 ++ " >= " ++ pyRepr value
  else if pyEndsWith key "__lte" then key.dropRight 5 ++ " <= " ++ pyRepr value
  else if pyEndsWith key "__gt" then key.dropRight 4 ++ " > " ++ pyRepr value
  else if pyEndsWith key "__lt" then key.dropRight 4 ++ " < " ++ pyRepr value
  else if pyEndsWith key "__ne" then key.dropRight 4 ++ " != " ++ pyRepr value
  else if pyEndsWith key "__in" then
    match value with
    | .listVal vs => key.dropRight 4 ++ " IN [" ++ pyReprList vs ++ "]"
    | v => key.dropRight 4 ++ " = " ++ pyRepr v
  else if pyEndsWith key "__contains" then
    key.dropRight 10 ++ " CONTAINS " ++ pyRepr value
  else key ++ " = " ++ pyRepr value

/-- Embeds `" AND ".join(conditions)`. -/
def joinAnd : List String → String
  | [] => ""
  | [c] => c
  | c :: rest => c ++ " AND " ++ joinAnd rest

/-- Embeds `_build_filter_query(table, filter_kwargs)`. -/
def buildFilterQuery (table : String) (kvs : List (String × FilterValue)) : String :=
  if kvs.isEmpty then "SELECT * FROM " ++ table
  else "SELECT * FROM " ++ table ++ " WHERE "
    ++ joinAnd (kvs.map (fun kv => condFor kv.1 kv.2))

/-- Counterexample to C8 as stated: the `__in` suffix is NOT translated
independently of the predicate's value type — with the non-list value `5`
the key `x__in` produces the equality condition `x = 5`, not a
set-membership test, while the same key with the list value `[5]` produces
`x IN [5]`. -/
theorem filter_suffix_map_c8_counterexample :
    buildFilterQuery "t" [("x__in", FilterValue.intVal 5)]
        = "SELECT * FROM t WHERE x = 5"
    ∧ buildFilterQuery "t" [("x__in", FilterValue.listVal [FilterValue.intVal 5])]
        = "SELECT * FROM t WHERE x IN [5]"
    ∧ ("SELECT * FROM t WHERE x = 5" : String) ≠ "SELECT * FROM t WHERE x IN [5]" := by
  exact ⟨rfl, rfl, by decide⟩

/-- C8 (amended): the translation maps each key by its suffix —
`__gte`→`>=`, `__lte`→`<=`, `__gt`→`>`, `__lt`→`<`, `__ne`→`!=`,
`__contains`→`CONTAINS`, no suffix→`=`, each independently of the value
type, while `__in` becomes a set-membership test only for list values and
an equality test otherwise; multiple predicates are conjoined with `AND`
in the iteration order of the supplied mapping; string values are quoted,
and the claim's example `{"age__gte": 18, "name": "Bob"}` yields
`SELECT * FROM user WHERE age >= 18 AND name = 'Bob'`. -/
theorem filter_suffix_map_c8 (table : String) (kvs : List (String × FilterValue)) :
    (kvs ≠ [] → buildFilterQuery table kvs =
        "SELECT * FROM " ++ table ++ " WHERE "
          ++ joinAnd (kvs.map (fun kv => condFor kv.1 kv.2)))
    ∧ (∀ v, condFor "age__gte" v = "age >= " ++ pyRepr v)
    ∧ (∀ v, condFor "age__lte" v = "age <= " ++ pyRepr v)
    ∧ (∀ v, condFor "age__gt" v = "age > " ++ pyRepr v)
    ∧ (∀ v, condFor "age__lt" v = "age < " ++ pyRepr v)
    ∧ (∀ v, condFor "age__ne" v = "age != " ++ pyRepr v)
    ∧ (∀ vs, condFor "tag__in" (FilterValue.listVal vs)
        = "tag IN [" ++ pyReprList vs ++ "]")
    ∧ (∀ n, condFor "tag__in" (FilterValue.intVal n)
        = "tag = " ++ pyRepr (FilterValue.intVal n))
    ∧ (∀ s, condFor "tag__in" (FilterValue.strVal s)
        = "tag = " ++ pyRepr (FilterValue.strVal s))
    ∧ (∀ v, condFor "name__contains" v = "name CONTAINS " ++ pyRepr v)
    ∧ (∀ v, condFor "name" v = "name = " ++ pyRepr v)
    ∧ buildFilterQuery "user"
        [("age__gte", FilterValue.intVal 18), ("name", FilterValue.strVal "Bob")]
        = "SELECT * FROM user WHERE age >= 18 AND name = " ++ pyReprStr "Bob"
    ∧ pyReprStr "Bob"
        = (Char.ofNat 39).toString ++ "Bob" ++ (Char.ofNat 39).toString := by
  refine ⟨fun h => ?_, fun v => rfl, fun v => rfl, fun v => rfl, fun v => rfl,
    fun v => rfl, fun vs => rfl, fun n => rfl, fun s => rfl, fun v => rfl,
    fun v => rfl, rfl, rfl⟩
  cases kvs with
  | nil => exact absurd rfl h
  | cons kv rest => rfl

/-- Witness for C8 (amended) at a concrete input: a single no-suffix
predicate yields the expected equality clause. -/
theorem filter_suffix_map_c8_witness :
    buildFilterQuery "t" [("a", FilterValue.intVal 1)]
      = "SELECT * FROM t WHERE a = 1" := by
  have h := (filter_suffix_map_c8 "t" [("a", FilterValue.intVal 1)]).1
    (List.cons_ne_nil _ _)
  rw [h]
  rfl

/-! ## Pool construction: transport selection by URL scheme

`AsyncConnectionPool.__init__` / `SyncConnectionPool.__init__`
(async_pool.py lines 16-64, sync_pool.py lines 18-66) end with
`parsed_url = Url(url)` followed by an if/elif/else on `parsed_url.scheme`
that raises `ValueError` for anything but HTTP/HTTPS/WS/WSS.  Both classes
carry the bare `@logger.catch` decorator (async_pool.py line 16,
sync_pool.py line 18): loguru wraps the decorated callable and, with its
default `reraise=False`, an exception escaping it — here the `ValueError`
raised inside `__init__` during construction — is caught and logged, and
the call returns `None` instead of propagating the error to the caller. -/

/-- The separator `://` between scheme and authority. -/
def schemeSep : List Char := [':', '/', '/']

/-- Characters before the first `://`, or `none` when absent. -/
def takeBeforeSep : List Char → Option (List Char)
  | [] => none
  | c :: rest =>
    if schemeSep.isPrefixOf (c :: rest) then some []
    else
      match takeBeforeSep rest with
      | some acc => some (c :: acc)
      | none => none

/-- Modelled from the spec: the repository's URL parser
(`surrealdb.connections.url`, classes `Url`/`UrlScheme`) is not under
`src/`; per the spec the `url` configuration option "selects transport by
scheme", so `Url(url).scheme` is modelled as the part of the URL before
`://` (empty when the separator is absent, which no supported scheme
matches). -/
def urlScheme (url : String) : String :=
  match takeBeforeSep url.data with
  | some cs => String.mk cs
  | none => ""

/-- Embeds the `ValueError("Unsupported URL scheme: ...")` raised by the
pool constructors. -/
inductive PoolConstructError where
  | unsupportedScheme
  deriving DecidableEq, Repr

/-- The transport class the constructor stores in
`self._connection_class`. -/
inductive TransportClass where
  | httpTransport
  | wsTransport
  deriving DecidableEq, Repr

/-- Embeds the constructor's scheme dispatch: HTTP/HTTPS pick the HTTP
transport, WS/WSS the websocket transport, anything else raises. -/
def selectTransport (scheme : String) : Except PoolConstructError TransportClass :=
  if scheme = "http" ∨ scheme = "https" then .ok .httpTransport
  else if scheme = "ws" ∨ scheme = "wss" then .ok .wsTransport
  else .error .unsupportedScheme

/-- Embeds the scheme-dependent part of the `__init__` BODY: parse the URL
and dispatch on its scheme, raising (returning `.error`) for an
unsupported scheme.  This is the undecorated code of the method itself;
there is no retry wrapper around it. -/
def poolConstructBody (url : String) : Except PoolConstructError TransportClass :=
  selectTransport (urlScheme url)

/-- Embeds loguru's bare `@logger.catch` wrapper (default
`reraise=False`): an exception raised by the wrapped callable is caught
and logged, and the call returns `None` in its place. -/
def loggerCatch {E A : Type} (body : Except E A) : Option A :=
  match body with
  | .ok a => some a
  | .error _ => none

/-- Embeds the observable outcome of calling `AsyncConnectionPool(...)` /
`SyncConnectionPool(...)`: the `@logger.catch` class decorator interposes
on construction, so a `ValueError` raised by the `__init__` body is logged
and swallowed and the construction call yields `none` — the caller gets no
pool instance and no error. -/
def poolConstruct (url : String) : Option TransportClass :=
  loggerCatch (poolConstructBody url)

/-- C9 (code bug): for a configuration whose URL scheme is not one of
http, https, ws, wss, the `__init__` body does raise the
unsupported-scheme `ValueError` — but the `@logger.catch` decorator on the
class (loguru default `reraise=False`) catches, logs and swallows it, and
the construction call returns `None`, so the caller never observes the
error.  The claim (with spec §7: structural failures fail fast and are
never silently swallowed outside teardown) describes the intended
behaviour; the decorator makes the code diverge from it. -/
theorem pool_construct_scheme_c9 (url : String)
    (h : urlScheme url ∉ (["http", "https", "ws", "wss"] : List String)) :
    poolConstructBody url = .error .unsupportedScheme
    ∧ poolConstruct url = none := by
  have h1 : ¬(urlScheme url = "http") := fun he => h (by simp [he])
  have h2 : ¬(urlScheme url = "https") := fun he => h (by simp [he])
  have h3 : ¬(urlScheme url = "ws") := fun he => h (by simp [he])
  have h4 : ¬(urlScheme url = "wss") := fun he => h (by simp [he])
  have hbody : poolConstructBody url = .error .unsupportedScheme := by
    simp [poolConstructBody, selectTransport, h1, h2, h3, h4]
  exact ⟨hbody, by simp [poolConstruct, loggerCatch, hbody]⟩

/-- Witness for C9 at the concrete failing input: with the FTP URL the
`__init__` body raises the unsupported-scheme error, yet the decorated
construction call swallows it and returns `None`. -/
theorem pool_construct_scheme_c9_witness :
    poolConstructBody "ftp://localhost:8000"
        = Except.error PoolConstructError.unsupportedScheme
    ∧ poolConstruct "ftp://localhost:8000" = none := by
  exact pool_construct_scheme_c9 "ftp://localhost:8000" (by decide)
